import Mathlib

/-!
Shallow embedding of the board-state synchronization core of the
react-ts-trello repository.

Client side (src/src/hooks/useBoardData.ts, src/src/pages/Index.tsx):
the in-memory board, the mutation operations (each modelled as a function
of the parsed remote response and the previous board), the drag-end
handler and the filter/sort view.

Server side (the Express router): the section/card tables and the route
handlers the claims refer to, modelled as functions on a server state.

Conventions of the embedding:
- JavaScript Date values are modelled as natural numbers (milliseconds
  since the epoch); the ISO-string round trip across the HTTP boundary
  is therefore the identity on these numbers.
- JSON fields that may be absent are modelled as Option.
- fetch responses are modelled by RemoteResult: ok carries the parsed
  JSON body, notOk is any non-2xx response (the client code only ever
  branches on res.ok before reading the body).
- JavaScript Array.prototype.sort and Prisma orderBy are modelled by a
  stable insertion sort; every property proved here depends only on the
  result being a permutation of the input.
-/

/-- Priority enumeration from src/src/types/board.ts. -/
inductive Priority where
  | low
  | normal
  | high
deriving Repr, DecidableEq

/-- UserLite from src/src/types/board.ts. -/
structure UserLite where
  id : String
  name : String
  email : String
deriving Repr, DecidableEq

/-- Comment from src/src/types/board.ts (author omitted by some server
responses, hence Option). -/
structure Comment where
  id : String
  text : String
  createdAt : Nat
  author : Option UserLite := none
deriving Repr, DecidableEq

/-- Card from src/src/types/board.ts; assignees is optional there
(assignees?: UserLite[]). -/
structure Card where
  id : String
  title : String
  description : String
  priority : Priority
  executor : String
  comments : List Comment
  createdAt : Nat
  sectionId : String
  assignees : Option (List UserLite) := none
deriving Repr, DecidableEq

/-- Section from src/src/types/board.ts. -/
structure Section where
  id : String
  title : String
  cards : List Card
  canDelete : Bool
deriving Repr, DecidableEq

/-- Board from src/src/types/board.ts. -/
structure Board where
  id : String
  title : String
  sections : List Section
deriving Repr, DecidableEq

/-- The parsed JSON body of a card-returning server response, as the
client reads it in useBoardData.ts: createdAt and comments are accessed
with fallbacks (updated.createdAt ?? c.createdAt,
updated.comments?.map(...) ?? ...), so they are Option here; sectionId
and assignees are included by the card routes. -/
structure CardResp where
  id : String
  title : String
  description : String
  priority : Priority
  executor : String
  createdAt : Option Nat
  comments : Option (List Comment)
  sectionId : String
  assignees : Option (List UserLite) := none
deriving Repr, DecidableEq

/-- A fetch outcome as the client observes it: res.ok plus the parsed
body (read only when ok). -/
inductive RemoteResult (α : Type) where
  | ok (body : α)
  | notOk
deriving Repr, DecidableEq

namespace Client

/-- reviveBoardDates from useBoardData.ts: structurally rebuilds the
board, parsing every createdAt ISO string into a Date. With dates
modelled as numbers the parse is the identity on the value. -/
def reviveBoardDates (b : Board) : Board :=
  { b with
    sections := b.sections.map (fun s =>
      { s with
        cards := s.cards.map (fun c =>
          { c with
            createdAt := c.createdAt,
            comments := c.comments.map (fun cm =>
              { cm with createdAt := cm.createdAt }) }) }) }

/-- addSection from useBoardData.ts: on ok, append the returned section
to prev.sections; on failure throw "Failed to create section". The
result pair is (board state after the call, thrown error if any). -/
def addSection (title : String) (res : RemoteResult Section) (prev : Board) :
    Board × Option String :=
  match res with
  | .notOk => (prev, some "Failed to create section")
  | .ok section_ =>
      ({ prev with sections := prev.sections ++ [section_] }, none)

/-- deleteSection from useBoardData.ts: on ok the client refetches the
whole board and replaces local state with it (revived); on failure it
throws "Failed to delete section". -/
def deleteSection (sectionId : String) (res : RemoteResult Unit)
    (refetched : Board) (prev : Board) : Board × Option String :=
  match res with
  | .notOk => (prev, some "Failed to delete section")
  | .ok _ => (reviveBoardDates refetched, none)

/-- clearSection from useBoardData.ts: same refetch-on-ok shape. -/
def clearSection (sectionId : String) (res : RemoteResult Unit)
    (refetched : Board) (prev : Board) : Board × Option String :=
  match res with
  | .notOk => (prev, some "Failed to clear section")
  | .ok _ => (reviveBoardDates refetched, none)

/-- deleteAllSections from useBoardData.ts: same refetch-on-ok shape. -/
def deleteAllSections (res : RemoteResult Unit) (refetched : Board)
    (prev : Board) : Board × Option String :=
  match res with
  | .notOk => (prev, some "Failed to delete all sections")
  | .ok _ => (reviveBoardDates refetched, none)

/-- The card object the addCard merge appends:
\x7b ...created, createdAt: new Date(created.createdAt), comments: [] \x7d.
new Date(undefined) is an Invalid Date; it is modelled as 0. -/
def CardResp.toCreatedCard (r : CardResp) : Card :=
  { id := r.id, title := r.title, description := r.description,
    priority := r.priority, executor := r.executor,
    comments := [], createdAt := r.createdAt.getD 0,
    sectionId := r.sectionId, assignees := r.assignees }

/-- addCard from useBoardData.ts: on ok, append the created card (built
from the server response, with comments forced to []) to the section
whose id equals the requested sectionId. -/
def addCard (sectionId : String) (res : RemoteResult CardResp)
    (prev : Board) : Board × Option String :=
  match res with
  | .notOk => (prev, some "Failed to add card")
  | .ok created =>
      ({ prev with
          sections := prev.sections.map (fun s =>
            if s.id == sectionId then
              { s with cards := s.cards ++ [CardResp.toCreatedCard created] }
            else s) }, none)

/-- The card the updateCard merge substitutes for a matching local card
c: all fields come from the server response, with createdAt falling back
to c.createdAt and comments falling back to c.comments when absent. -/
def CardResp.applyUpdate (r : CardResp) (c : Card) : Card :=
  { id := r.id, title := r.title, description := r.description,
    priority := r.priority, executor := r.executor,
    comments := r.comments.getD c.comments,
    createdAt := r.createdAt.getD c.createdAt,
    sectionId := r.sectionId, assignees := r.assignees }

/-- updateCard from useBoardData.ts: on ok, map over every section and
replace each card whose id equals card.id with the server-returned card;
no card changes section membership here. -/
def updateCard (card : Card) (res : RemoteResult CardResp)
    (prev : Board) : Board × Option String :=
  match res with
  | .notOk => (prev, some "Failed to update card")
  | .ok updated =>
      ({ prev with
          sections := prev.sections.map (fun s =>
            { s with
              cards := s.cards.map (fun c =>
                if c.id == card.id then CardResp.applyUpdate updated c
                else c) }) }, none)

/-- deleteCard from useBoardData.ts: on ok, filter the card id out of
every section. -/
def deleteCard (cardId : String) (res : RemoteResult Unit)
    (prev : Board) : Board × Option String :=
  match res with
  | .notOk => (prev, some "Failed to delete card")
  | .ok _ =>
      ({ prev with
          sections := prev.sections.map (fun s =>
            { s with cards := s.cards.filter (fun c => !(c.id == cardId)) }) },
        none)

/-- The card the moveCard merge appends:
\x7b ...moved, createdAt: new Date(moved.createdAt),
comments: moved.comments?.map(...) ?? [] \x7d. -/
def CardResp.toMovedCard (r : CardResp) : Card :=
  { id := r.id, title := r.title, description := r.description,
    priority := r.priority, executor := r.executor,
    comments := r.comments.getD [], createdAt := r.createdAt.getD 0,
    sectionId := r.sectionId, assignees := r.assignees }

/-- moveCard from useBoardData.ts: on ok, remove the card id from every
section, then append the server-returned card to the section whose id
equals targetSectionId. -/
def moveCard (cardId : String) (targetSectionId : String)
    (res : RemoteResult CardResp) (prev : Board) : Board × Option String :=
  match res with
  | .notOk => (prev, some "Failed to move card")
  | .ok moved =>
      let without := prev.sections.map (fun s =>
        { s with cards := s.cards.filter (fun c => !(c.id == cardId)) })
      ({ prev with
          sections := without.map (fun s =>
            if s.id == targetSectionId then
              { s with cards := s.cards ++ [CardResp.toMovedCard moved] }
            else s) }, none)

/-- assignUser from useBoardData.ts: on ok, replace the assignees of
every card whose id equals cardId with the server-returned list. -/
def assignUser (cardId : String) (userId : String)
    (res : RemoteResult (List UserLite)) (prev : Board) :
    Board × Option String :=
  match res with
  | .notOk => (prev, some "Failed to assign user")
  | .ok assignees =>
      ({ prev with
          sections := prev.sections.map (fun s =>
            { s with
              cards := s.cards.map (fun c =>
                if c.id == cardId then { c with assignees := some assignees }
                else c) }) }, none)

/-- unassignUser from useBoardData.ts: identical merge shape to
assignUser, with the response of the DELETE route. -/
def unassignUser (cardId : String) (userId : String)
    (res : RemoteResult (List UserLite)) (prev : Board) :
    Board × Option String :=
  match res with
  | .notOk => (prev, some "Failed to unassign user")
  | .ok assignees =>
      ({ prev with
          sections := prev.sections.map (fun s =>
            { s with
              cards := s.cards.map (fun c =>
                if c.id == cardId then { c with assignees := some assignees }
                else c) }) }, none)

end Client

/-- All card ids of a board, in section order (used to state the
exclusive-membership invariant). -/
def allCardIds (b : Board) : List String :=
  b.sections.flatMap (fun s => s.cards.map (fun c => c.id))

/-- Number of sections of b whose card sequence lists a card with the
given id. -/
def sectionsListing (b : Board) (id : String) : Nat :=
  b.sections.countP (fun s => s.cards.any (fun c => c.id == id))

/-- The spec invariant: every card identifier that occurs on the board
occurs in exactly one section card sequence. -/
def ExclusiveMembership (b : Board) : Prop :=
  ∀ id ∈ allCardIds b, sectionsListing b id = 1

instance (b : Board) : Decidable (ExclusiveMembership b) :=
  List.decidableBAll _ _

/-- Fallback section for positional getD access in statements. -/
def defaultSection : Section := ⟨"", "", [], false⟩

/-- Stable insertion of an element into a list: a lands before the first
element b for which le a b holds. -/
def insertLe {α : Type} (le : α → α → Bool) (a : α) : List α → List α
  | [] => [a]
  | b :: bs => if le a b then a :: b :: bs else b :: insertLe le a bs

/-- Stable insertion sort, modelling JavaScript Array.prototype.sort and
Prisma orderBy; the properties proved in this file depend only on the
result being a permutation of the input. -/
def insertionSort {α : Type} (le : α → α → Bool) : List α → List α
  | [] => []
  | a :: as => insertLe le a (insertionSort le as)

namespace Index

/-- FilterState as consumed by Index.tsx and FilterPanel.tsx:
priority set, executor set, AND/OR toggle and sort mode (a string,
one of "date", "priority-low-high", "priority-high-low",
"priority-normal-first"). -/
structure FilterState where
  priorities : List Priority
  executors : List String
  multiFilter : Bool
  sortBy : String
deriving Repr, DecidableEq

/-- The priorityOrder lookup table of getFilteredAndSortedCards. -/
def priorityOrder : Priority → Nat
  | .low => 1
  | .normal => 2
  | .high => 3

/-- The filter callback of getFilteredAndSortedCards: priorityMatch and
executorMatch, combined with AND when multiFilter is set, OR otherwise. -/
def cardFilterPred (filters : FilterState) (card : Card) : Bool :=
  let priorityMatch :=
    filters.priorities.length == 0 || filters.priorities.contains card.priority
  let executorMatch :=
    filters.executors.length == 0 || filters.executors.contains card.executor
  if filters.multiFilter then priorityMatch && executorMatch
  else priorityMatch || executorMatch

/-- Comparator of the "date" sort branch:
(a, b) => a.createdAt.getTime() - b.createdAt.getTime(). -/
def leDate (a b : Card) : Bool :=
  decide (a.createdAt ≤ b.createdAt)

/-- Comparator of the "priority-low-high" branch. -/
def lePriorityLowHigh (a b : Card) : Bool :=
  decide (priorityOrder a.priority ≤ priorityOrder b.priority)

/-- Comparator of the "priority-high-low" branch. -/
def lePriorityHighLow (a b : Card) : Bool :=
  decide (priorityOrder b.priority ≤ priorityOrder a.priority)

/-- Comparator of the "priority-normal-first" branch: normal before
everything else, then ascending priorityOrder. -/
def lePriorityNormalFirst (a b : Card) : Bool :=
  if a.priority == .normal && !(b.priority == .normal) then true
  else if !(a.priority == .normal) && b.priority == .normal then false
  else decide (priorityOrder a.priority ≤ priorityOrder b.priority)

/-- The filtering phase of getFilteredAndSortedCards: filtered starts as
a copy of cards and is replaced by cards.filter(...) when either filter
set is non-empty. -/
def applyFilters (filters : FilterState) (cards : List Card) : List Card :=
  if filters.priorities.length > 0 || filters.executors.length > 0 then
    cards.filter (cardFilterPred filters)
  else cards

/-- getFilteredAndSortedCards from Index.tsx (value semantics): filter,
then sort according to filters.sortBy; the default switch branch returns
the filtered list unsorted. -/
def getFilteredAndSortedCards (filters : FilterState) (cards : List Card) :
    List Card :=
  let filtered := applyFilters filters cards
  match filters.sortBy with
  | "date" => insertionSort leDate filtered
  | "priority-low-high" => insertionSort lePriorityLowHigh filtered
  | "priority-high-low" => insertionSort lePriorityHighLow filtered
  | "priority-normal-first" => insertionSort lePriorityNormalFirst filtered
  | _ => filtered

/-- The derived filteredBoard of Index.tsx: a fresh board whose sections
carry the filtered and sorted card views. -/
def filteredBoard (filters : FilterState) (board : Board) : Board :=
  { board with
    sections := board.sections.map (fun s =>
      { s with cards := getFilteredAndSortedCards filters s.cards }) }

/-- A dnd-kit DragEndEvent as handleDragEnd reads it: the dragged id and
the drop-target id (absent when dropped nowhere). -/
structure DragEndEvent where
  activeId : String
  overId : Option String
deriving Repr, DecidableEq

/-- handleDragEnd from Index.tsx, modelled as the remote call it issues:
some (cardId, targetSectionId) exactly when moveCard is invoked, none
when the handler returns without calling anything. -/
def handleDragEnd (board : Board) (event : DragEndEvent) :
    Option (String × String) :=
  match event.overId with
  | none => none
  | some dropId =>
      let cardId := event.activeId
      let currentSection :=
        board.sections.find? (fun s => s.cards.any (fun c => c.id == cardId))
      let currentSectionId := currentSection.map (fun s => s.id)
      let targetSection := board.sections.find? (fun s => s.id == dropId)
      let targetSectionId := targetSection.map (fun s => s.id)
      match targetSectionId with
      | none => none
      | some tid =>
          if some tid == currentSectionId then none
          else some (cardId, tid)

/-- One drag-end interaction end to end: the handler either issues no
call (board untouched) or invokes Client.moveCard, whose merge runs on
the move response. Returns the resulting board and the issued call. -/
def dragEndStep (board : Board) (event : DragEndEvent)
    (moveRes : RemoteResult CardResp) : Board × Option (String × String) :=
  match handleDragEnd board event with
  | none => (board, none)
  | some (cardId, tid) =>
      ((Client.moveCard cardId tid moveRes board).1, some (cardId, tid))

/-- handleDeleteSection from Index.tsx, modelled as the remote call it
issues: the section is looked up by id and Client.deleteSection is
called only when section?.canDelete holds. -/
def handleDeleteSection (board : Board) (sectionId : String) :
    Option String :=
  match board.sections.find? (fun s => s.id == sectionId) with
  | some s => if s.canDelete then some sectionId else none
  | none => none

end Index

namespace Server

/-!
Server model, from the Express router (routes/api.ts) and the Prisma
schema. The model is scoped to a single project, so projectId matching
is elided; id columns are primary keys in the schema (UNIQUE), which the
theorems carry as Nodup hypotheses where they matter. The comment and
assignee routes touch only the comment table and the card-user join
table, never the section table; the join table is not modelled and board
composition renders assignees as the empty list.
-/

/-- A row of the Section table. -/
structure DbSection where
  id : String
  title : String
  canDelete : Bool
deriving Repr, DecidableEq

/-- A row of the Card table. -/
structure DbCard where
  id : String
  title : String
  description : String
  priority : Priority
  executor : String
  createdAt : Nat
  sectionId : String
deriving Repr, DecidableEq

/-- A row of the Comment table. -/
structure DbComment where
  id : String
  text : String
  createdAt : Nat
  cardId : String
  authorId : Option String := none
deriving Repr, DecidableEq

/-- The tables of one project. -/
structure DbState where
  sections : List DbSection
  cards : List DbCard
  comments : List DbComment
deriving Repr, DecidableEq

/-- The default sections seeded by POST /projects: Backlog is the only
one with canDelete false. Row ids are server-assigned, passed in here. -/
def seedSections (backlogId todoId reviewId doneId : String) :
    List DbSection :=
  [ { id := backlogId, title := "Backlog", canDelete := false },
    { id := todoId, title := "To Do", canDelete := true },
    { id := reviewId, title := "Review", canDelete := true },
    { id := doneId, title := "Done", canDelete := true } ]

/-- POST /projects/:projectId/sections: reject an empty title (zod
min 1), otherwise insert a new section with canDelete true. Returns the
new table state and the HTTP status. -/
def createSection (newId title : String) (st : DbState) : DbState × Nat :=
  if title.length == 0 then (st, 400)
  else
    ({ st with sections := st.sections ++ [⟨newId, title, true⟩] }, 201)

/-- DELETE /projects/:projectId/sections/:id: 404 when the id resolves
to no section, 400 when the section is not deletable; otherwise delete
every comment of every card in the section, delete those cards, and
delete the section row (a primary-key delete removes exactly the matched
row, modelled by erasing the found row). -/
def deleteSection (id : String) (st : DbState) : DbState × Nat :=
  match st.sections.find? (fun s => s.id == id) with
  | none => (st, 404)
  | some section_ =>
      if !section_.canDelete then (st, 400)
      else
        let cardIds := (st.cards.filter (fun c => c.sectionId == id)).map
          (fun c => c.id)
        ({ sections := st.sections.erase section_,
           cards := st.cards.filter (fun c => !(cardIds.contains c.id)),
           comments := st.comments.filter (fun cm => !(cardIds.contains cm.cardId)) },
          200)

/-- POST /projects/:projectId/sections/:id/clear: 404 when the id
resolves to no section; otherwise hard-delete every card of the section
and their comments. The section row itself is untouched. -/
def clearSection (id : String) (st : DbState) : DbState × Nat :=
  match st.sections.find? (fun s => s.id == id) with
  | none => (st, 404)
  | some _ =>
      let cardIds := (st.cards.filter (fun c => c.sectionId == id)).map
        (fun c => c.id)
      ({ st with
          cards := st.cards.filter (fun c => !(cardIds.contains c.id)),
          comments := st.comments.filter (fun cm => !(cardIds.contains cm.cardId)) },
        200)

/-- POST /projects/:projectId/sections/delete-all: 400 when no section
is titled Backlog; otherwise move every card of a deletable section to
the Backlog row found first, then delete all deletable section rows. -/
def deleteAllSections (st : DbState) : DbState × Nat :=
  match st.sections.find? (fun s => s.title == "Backlog") with
  | none => (st, 400)
  | some backlog =>
      let deletableIds := (st.sections.filter (fun s => s.canDelete)).map
        (fun s => s.id)
      ({ st with
          sections := st.sections.filter (fun s => !(deletableIds.contains s.id)),
          cards := st.cards.map (fun c =>
            if deletableIds.contains c.sectionId then
              { c with sectionId := backlog.id }
            else c) },
        200)

/-- POST /projects/:projectId/sections/:sectionId/cards: 400 on an empty
title (zod min 1), 404 when the section is missing; otherwise insert the
card row (id and createdAt server-assigned, passed in here). -/
def createCard (newId : String) (sectionId : String) (title description : String)
    (priority : Priority) (executor : String) (createdAt : Nat)
    (st : DbState) : DbState × Nat :=
  if title.length == 0 then (st, 400)
  else
    match st.sections.find? (fun s => s.id == sectionId) with
    | none => (st, 404)
    | some _ =>
        ({ st with
            cards := st.cards ++
              [⟨newId, title, description, priority, executor, createdAt, sectionId⟩] },
          201)

/-- PUT /projects/:projectId/cards/:cardId: 400 when a target sectionId
is supplied but resolves to no section, 404 when the card is missing;
otherwise overwrite the card row fields (sectionId only when supplied). -/
def updateCard (cardId : String) (title description : String)
    (priority : Priority) (executor : String) (sectionId : Option String)
    (st : DbState) : DbState × Nat :=
  if title.length == 0 then (st, 400)
  else
    match sectionId with
    | some sid =>
        match st.sections.find? (fun s => s.id == sid) with
        | none => (st, 400)
        | some _ => updateCardRow cardId title description priority executor sectionId st
    | none => updateCardRow cardId title description priority executor sectionId st
where
  /-- The prisma.card.update call shared by both validation paths. -/
  updateCardRow (cardId : String) (title description : String)
      (priority : Priority) (executor : String) (sectionId : Option String)
      (st : DbState) : DbState × Nat :=
    match st.cards.find? (fun c => c.id == cardId) with
    | none => (st, 404)
    | some _ =>
        ({ st with
            cards := st.cards.map (fun c =>
              if c.id == cardId then
                { c with title := title, description := description,
                         priority := priority, executor := executor,
                         sectionId := sectionId.getD c.sectionId }
              else c) },
          200)

/-- DELETE /projects/:projectId/cards/:cardId: delete the card comments,
then the card row; 404 when the card is missing (prisma delete throws). -/
def deleteCard (cardId : String) (st : DbState) : DbState × Nat :=
  match st.cards.find? (fun c => c.id == cardId) with
  | none => (st, 404)
  | some card =>
      ({ st with
          cards := st.cards.erase card,
          comments := st.comments.filter (fun cm => !(cm.cardId == cardId)) },
        200)

/-- POST /projects/:projectId/cards/:cardId/move: 400 when the target
section is missing, 404 when the card is missing; otherwise set the card
row sectionId to the target section id. -/
def moveCard (cardId targetSectionId : String) (st : DbState) : DbState × Nat :=
  match st.sections.find? (fun s => s.id == targetSectionId) with
  | none => (st, 400)
  | some toSection =>
      match st.cards.find? (fun c => c.id == cardId) with
      | none => (st, 404)
      | some _ =>
          ({ st with
              cards := st.cards.map (fun c =>
                if c.id == cardId then { c with sectionId := toSection.id } else c) },
            200)

/-- A card as GET /projects/:projectId/board renders it (assignees come
from the unmodelled join table and render as []). -/
def renderCard (st : DbState) (c : DbCard) : Card :=
  { id := c.id, title := c.title, description := c.description,
    priority := c.priority, executor := c.executor,
    comments := (st.comments.filter (fun cm => cm.cardId == c.id)).map
      (fun cm => { id := cm.id, text := cm.text, createdAt := cm.createdAt }),
    createdAt := c.createdAt, sectionId := c.sectionId,
    assignees := some [] }

/-- GET /projects/:projectId/board: sections ordered by title ascending,
cards ordered by createdAt ascending and grouped by sectionId (cards
whose sectionId matches no section are dropped by the grouping). -/
def getBoard (projectId projectTitle : String) (st : DbState) : Board :=
  let sections := insertionSort (fun a b => decide (a.title ≤ b.title)) st.sections
  let cards := insertionSort (fun a b => decide (a.createdAt ≤ b.createdAt)) st.cards
  { id := projectId ++ "-board",
    title := projectTitle,
    sections := sections.map (fun s =>
      { id := s.id, title := s.title, canDelete := s.canDelete,
        cards := (cards.filter (fun c => c.sectionId == s.id)).map
          (renderCard st) }) }

/-- One server mutation, with server-assigned identifiers carried as
constructor data. Comment and assignee routes are omitted: they never
touch the section or card tables in a way that affects sections. -/
inductive ServerOp where
  | createSection (newId title : String)
  | deleteSection (id : String)
  | clearSection (id : String)
  | deleteAllSections
  | createCard (newId sectionId title description : String)
      (priority : Priority) (executor : String) (createdAt : Nat)
  | updateCard (cardId title description : String) (priority : Priority)
      (executor : String) (sectionId : Option String)
  | deleteCard (cardId : String)
  | moveCard (cardId targetSectionId : String)
deriving Repr, DecidableEq

/-- Apply one server mutation to the tables (the HTTP status is
discarded; a rejected request leaves the state unchanged). -/
def applyOp (op : ServerOp) (st : DbState) : DbState :=
  match op with
  | .createSection newId title => (createSection newId title st).1
  | .deleteSection id => (deleteSection id st).1
  | .clearSection id => (clearSection id st).1
  | .deleteAllSections => (deleteAllSections st).1
  | .createCard newId sectionId title description priority executor createdAt =>
      (createCard newId sectionId title description priority executor createdAt st).1
  | .updateCard cardId title description priority executor sectionId =>
      (updateCard cardId title description priority executor sectionId st).1
  | .deleteCard cardId => (deleteCard cardId st).1
  | .moveCard cardId targetSectionId => (moveCard cardId targetSectionId st).1

/-- Apply a sequence of server mutations in order. -/
def applyOps (ops : List ServerOp) (st : DbState) : DbState :=
  match ops with
  | [] => st
  | op :: rest => applyOps rest (applyOp op st)

/-- The primary-key guarantee of the schema for section rows. -/
def SectionIdsUnique (st : DbState) : Prop :=
  (st.sections.map (fun s => s.id)).Nodup

instance (st : DbState) : Decidable (SectionIdsUnique st) :=
  List.nodupDecidable _

/-- Every createSection in the sequence carries an id that is fresh for
the state it runs against (the database assigns fresh primary keys). -/
def FreshSectionIds (st : DbState) : List ServerOp → Prop
  | [] => True
  | op :: rest =>
      (match op with
       | .createSection newId _ => newId ∉ st.sections.map (fun s => s.id)
       | _ => True) ∧ FreshSectionIds (applyOp op st) rest

end Server

namespace Index

/-!
Reference-level model of getFilteredAndSortedCards, for the frame claim.
JavaScript arrays are heap objects: `[...cards]` and `cards.filter(...)`
allocate fresh arrays, while `filtered.sort(...)` mutates the array that
`filtered` points to in place. The heap is a list of card arrays; a
pointer is an index into it; the Board Store owns the pointers of the
section card arrays, and the view computation receives those pointers.
-/

/-- The heap of card arrays. -/
abbrev CardHeap : Type := List (List Card)

/-- Read the array a pointer designates (unallocated pointers read []). -/
def readArr (h : CardHeap) (p : Nat) : List Card :=
  List.getD h p []

/-- Allocate a fresh array holding the given contents; returns the heap
and the new pointer. -/
def allocArr (h : CardHeap) (contents : List Card) : CardHeap × Nat :=
  (List.append h [contents], List.length h)

/-- Overwrite the array a pointer designates (in-place mutation). -/
def writeArr (h : CardHeap) (p : Nat) (contents : List Card) : CardHeap :=
  List.set h p contents

/-- The filtering phase of getFilteredAndSortedCards at the reference
level: let filtered = [...cards] allocates a copy of the array the
caller passed; when a filter set is non-empty, filtered is rebound to
the freshly allocated cards.filter(...) result. Returns the heap and the
pointer filtered holds. -/
def filterPhaseRef (filters : FilterState) (h : CardHeap) (cards : Nat) :
    CardHeap × Nat :=
  let alloc1 := allocArr h (readArr h cards)
  if filters.priorities.length > 0 || filters.executors.length > 0 then
    allocArr alloc1.1 ((readArr alloc1.1 cards).filter (cardFilterPred filters))
  else (alloc1.1, alloc1.2)

/-- The sorting phase: each switch branch sorts the array `filtered`
points to in place (filtered.sort(...)) and returns `filtered`; the
default branch returns it unsorted. -/
def sortPhaseRef (filters : FilterState) (hf : CardHeap × Nat) :
    CardHeap × Nat :=
  match filters.sortBy with
  | "date" =>
      (writeArr hf.1 hf.2 (insertionSort leDate (readArr hf.1 hf.2)), hf.2)
  | "priority-low-high" =>
      (writeArr hf.1 hf.2 (insertionSort lePriorityLowHigh (readArr hf.1 hf.2)), hf.2)
  | "priority-high-low" =>
      (writeArr hf.1 hf.2 (insertionSort lePriorityHighLow (readArr hf.1 hf.2)), hf.2)
  | "priority-normal-first" =>
      (writeArr hf.1 hf.2 (insertionSort lePriorityNormalFirst (readArr hf.1 hf.2)), hf.2)
  | _ => hf

/-- getFilteredAndSortedCards from Index.tsx at the reference level:
the filtering phase followed by the in-place sorting phase; the result
is the heap after the call and the pointer handed to the caller. -/
def getFilteredAndSortedCardsRef (filters : FilterState) (h : CardHeap)
    (cards : Nat) : CardHeap × Nat :=
  sortPhaseRef filters (filterPhaseRef filters h cards)

/-- The filteredBoard computation of Index.tsx at the reference level:
evaluate the view for every section card array in order, threading the
heap; returns the final heap and the view pointers. -/
def filteredBoardRef (filters : FilterState) (h : CardHeap)
    (ptrs : List Nat) : CardHeap × List Nat :=
  match ptrs with
  | [] => (h, [])
  | p :: rest =>
      let step := getFilteredAndSortedCardsRef filters h p
      let next := filteredBoardRef filters step.1 rest
      (next.1, step.2 :: next.2)

end Index

/-! Helper lemmas. -/

theorem insertLe_perm {α : Type} (le : α → α → Bool) (a : α) (l : List α) :
    (insertLe le a l).Perm (a :: l) := by
  induction l with
  | nil => exact List.Perm.refl _
  | cons b bs ih =>
      simp only [insertLe]
      split
      · exact List.Perm.refl _
      · exact ((ih.cons b).trans (List.Perm.swap a b bs))

theorem insertionSort_perm {α : Type} (le : α → α → Bool) (l : List α) :
    (insertionSort le l).Perm l := by
  induction l with
  | nil => exact List.Perm.refl _
  | cons a as ih =>
      exact (insertLe_perm le a (insertionSort le as)).trans (ih.cons a)

/-- C4: mutation failure is atomic. For each of the ten mutation
operations, a non-ok remote response makes the operation throw its
error and leaves the local board state exactly as it was: the operation
evaluates to (previous board, thrown error). -/
theorem mutation_failure_leaves_state_unchanged :
    (∀ title prev, Client.addSection title .notOk prev =
      (prev, some "Failed to create section")) ∧
    (∀ sid refetched prev, Client.deleteSection sid .notOk refetched prev =
      (prev, some "Failed to delete section")) ∧
    (∀ sid refetched prev, Client.clearSection sid .notOk refetched prev =
      (prev, some "Failed to clear section")) ∧
    (∀ refetched prev, Client.deleteAllSections .notOk refetched prev =
      (prev, some "Failed to delete all sections")) ∧
    (∀ sid prev, Client.addCard sid .notOk prev =
      (prev, some "Failed to add card")) ∧
    (∀ card prev, Client.updateCard card .notOk prev =
      (prev, some "Failed to update card")) ∧
    (∀ cid prev, Client.deleteCard cid .notOk prev =
      (prev, some "Failed to delete card")) ∧
    (∀ cid tid prev, Client.moveCard cid tid .notOk prev =
      (prev, some "Failed to move card")) ∧
    (∀ cid uid prev, Client.assignUser cid uid .notOk prev =
      (prev, some "Failed to assign user")) ∧
    (∀ cid uid prev, Client.unassignUser cid uid .notOk prev =
      (prev, some "Failed to unassign user")) := by
  refine ⟨?_, ?_, ?_, ?_, ?_, ?_, ?_, ?_, ?_, ?_⟩ <;> intros <;> rfl

/-- C3: a drag-end event whose drop target is not a section id of the
board (including no drop target at all), or whose resolved destination
is the section currently containing the dragged card, issues zero
remote calls and leaves the board unchanged. -/
theorem dragEnd_invalid_or_same_target_noop (board : Board)
    (activeId : String) (overId : Option String)
    (moveRes : RemoteResult CardResp)
    (h : (∀ s ∈ board.sections, overId ≠ some s.id) ∨
         (∃ s, board.sections.find?
              (fun s => s.cards.any (fun c => c.id == activeId)) = some s ∧
            overId = some s.id)) :
    Index.dragEndStep board ⟨activeId, overId⟩ moveRes = (board, none) := by
  have hnone : Index.handleDragEnd board ⟨activeId, overId⟩ = none := by
    match hov : overId with
    | none => rfl
    | some dropId =>
        rcases h with h1 | ⟨s, hfind, hover⟩
        · have : board.sections.find? (fun s => s.id == dropId) = none := by
            rw [List.find?_eq_none]
            intro t ht
            have := h1 t ht
            simp only [hov, ne_eq, Option.some.injEq] at this
            simpa using fun he => this he.symm
          simp only [Index.handleDragEnd, this, Option.map_none']
        · have hsid : dropId = s.id := by
            simpa [hov] using hover
          have hmem : s ∈ board.sections := List.mem_of_find?_eq_some hfind
          have hex : ∃ t ∈ board.sections, (t.id == dropId) = true := by
            exact ⟨s, hmem, by simp [hsid]⟩
          rcases List.find?_isSome.mpr hex with hfs
          match hft : board.sections.find? (fun t => t.id == dropId) with
          | none => rw [hft] at hfs; simp at hfs
          | some t =>
              have htid : t.id = dropId := by
                have := List.find?_some hft
                simpa using this
              simp only [Index.handleDragEnd, hfind, hft, Option.map_some']
              have : (some t.id == some s.id) = true := by
                simp [htid, hsid]
              simp [this]
  simp [Index.dragEndStep, hnone]

/-- C3 witness: dropping card c1 onto itself (the drop id is a card id,
not a section id) on a one-section board issues no call. -/
theorem dragEnd_invalid_or_same_target_noop_witness :
    (∀ s ∈ (Board.mk "b" "t"
        [⟨"a", "A", [⟨"c1", "t", "", .normal, "", [], 0, "a", none⟩], true⟩]).sections,
      (some "c1" : Option String) ≠ some s.id) ∧
    Index.dragEndStep
      (Board.mk "b" "t"
        [⟨"a", "A", [⟨"c1", "t", "", .normal, "", [], 0, "a", none⟩], true⟩])
      ⟨"c1", some "c1"⟩ .notOk =
      (Board.mk "b" "t"
        [⟨"a", "A", [⟨"c1", "t", "", .normal, "", [], 0, "a", none⟩], true⟩], none) := by
  refine ⟨by decide, ?_⟩
  exact dragEnd_invalid_or_same_target_noop _ "c1" (some "c1") .notOk
    (Or.inl (by decide))

/-- C8: with priority filter set [high] and executor filter set ["Bob"],
the view in disjunctive mode returns exactly the cards with high
priority or executor "Bob" (the union), and the same filters in
conjunctive mode return exactly the cards with both (the intersection),
up to the order imposed by the selected sort mode. -/
theorem filter_disjunctive_union_conjunctive_intersection
    (cards : List Card) (sb : String) :
    ((Index.getFilteredAndSortedCards ⟨[.high], ["Bob"], false, sb⟩ cards).Perm
      (cards.filter (fun c => c.priority == Priority.high || c.executor == "Bob"))) ∧
    ((Index.getFilteredAndSortedCards ⟨[.high], ["Bob"], true, sb⟩ cards).Perm
      (cards.filter (fun c => c.priority == Priority.high && c.executor == "Bob"))) := by
  have h1 : Index.applyFilters ⟨[.high], ["Bob"], false, sb⟩ cards =
      cards.filter (fun c => c.priority == Priority.high || c.executor == "Bob") := by
    rw [Index.applyFilters, if_pos (by simp)]
    apply List.filter_congr
    intro c _
    by_cases hp : c.priority = Priority.high <;> by_cases he : c.executor = "Bob" <;>
      simp [Index.cardFilterPred, List.contains_cons, hp, he]
  have h2 : Index.applyFilters ⟨[.high], ["Bob"], true, sb⟩ cards =
      cards.filter (fun c => c.priority == Priority.high && c.executor == "Bob") := by
    rw [Index.applyFilters, if_pos (by simp)]
    apply List.filter_congr
    intro c _
    by_cases hp : c.priority = Priority.high <;> by_cases he : c.executor = "Bob" <;>
      simp [Index.cardFilterPred, List.contains_cons, hp, he]
  constructor
  · simp only [Index.getFilteredAndSortedCards, h1]
    split <;> first
      | exact insertionSort_perm _ _
      | exact List.Perm.refl _
  · simp only [Index.getFilteredAndSortedCards, h2]
    split <;> first
      | exact insertionSort_perm _ _
      | exact List.Perm.refl _

theorem getD_map_of_lt {α β : Type} (f : α → β) (l : List α) (i : Nat)
    (hi : i < l.length) (d : β) (d0 : α) :
    (l.map f).getD i d = f (l.getD i d0) := by
  rw [List.getD_eq_getElem?_getD, List.getD_eq_getElem?_getD, List.getElem?_map]
  rw [List.getElem?_eq_getElem hi]
  rfl

theorem mem_allCardIds {b : Board} {id : String} :
    id ∈ allCardIds b ↔ ∃ s ∈ b.sections, ∃ c ∈ s.cards, c.id = id := by
  simp [allCardIds]


theorem moveCard_sections_eq (b : Board) (cardId targetSectionId : String)
    (moved : CardResp) :
    (Client.moveCard cardId targetSectionId (.ok moved) b).1.sections =
      b.sections.map (fun s =>
        if s.id == targetSectionId then
          { s with cards := s.cards.filter (fun c => !(c.id == cardId))
              ++ [Client.CardResp.toMovedCard moved] }
        else { s with cards := s.cards.filter (fun c => !(c.id == cardId)) }) := by
  show List.map _ (List.map _ b.sections) = _
  rw [List.map_map]
  apply List.map_congr_left
  intro s _
  by_cases ht : (s.id == targetSectionId) = true
  · simp only [Function.comp_apply, ht, if_pos]
  · simp only [Function.comp_apply, Bool.not_eq_true] at ht
    simp only [Function.comp_apply, ht, Bool.false_eq_true, if_false]

/-- C5: for a card id present on the board and a target section id
present on the board, the moveCard merge removes the card id from every
section other than the destination, and the destination section (by
position) ends up with its previous cards minus the moved id, with the
card built from the server response appended at the end. -/
theorem moveCard_removes_and_appends_server_card (b : Board)
    (cardId targetSectionId : String) (moved : CardResp)
    (hpresent : cardId ∈ allCardIds b)
    (htarget : targetSectionId ∈ b.sections.map (fun s => s.id))
    (hecho : moved.id = cardId) :
    ((Client.moveCard cardId targetSectionId (.ok moved) b).1.sections.length
        = b.sections.length) ∧
    (∀ s ∈ (Client.moveCard cardId targetSectionId (.ok moved) b).1.sections,
        s.id ≠ targetSectionId → ∀ c ∈ s.cards, c.id ≠ cardId) ∧
    (∀ i, i < b.sections.length →
        (b.sections.getD i defaultSection).id = targetSectionId →
        ((Client.moveCard cardId targetSectionId (.ok moved) b).1.sections.getD
            i defaultSection).cards =
          ((b.sections.getD i defaultSection).cards.filter
              (fun c => !(c.id == cardId)))
            ++ [Client.CardResp.toMovedCard moved]) := by
  have hsections := moveCard_sections_eq b cardId targetSectionId moved
  refine ⟨by rw [hsections, List.length_map], ?_, ?_⟩
  · intro s hs hsid c hc
    rw [hsections] at hs
    rcases List.mem_map.mp hs with ⟨s0, hs0, rfl⟩
    by_cases ht : (s0.id == targetSectionId) = true
    · exfalso
      apply hsid
      simp only [ht, if_pos]
      exact eq_of_beq ht
    · simp only [Bool.not_eq_true] at ht
      simp only [ht, Bool.false_eq_true, if_false] at hc ⊢
      rcases List.mem_filter.mp hc with ⟨_, hne⟩
      simpa using hne
  · intro i hi htid
    rw [hsections, getD_map_of_lt _ _ i hi defaultSection defaultSection]
    have ht : ((b.sections.getD i defaultSection).id == targetSectionId) = true := by
      simpa using htid
    simp only [ht, if_pos]

/-- C5 witness: moving card c1 from section a to section d on a
two-section board. -/
theorem moveCard_removes_and_appends_server_card_witness :
    ("c1" ∈ allCardIds (Board.mk "b" "t"
        [⟨"a", "A", [⟨"c1", "t", "", .normal, "", [], 0, "a", none⟩], true⟩,
         ⟨"d", "D", [], true⟩]) ∧
      "d" ∈ (Board.mk "b" "t"
        [⟨"a", "A", [⟨"c1", "t", "", .normal, "", [], 0, "a", none⟩], true⟩,
         ⟨"d", "D", [], true⟩]).sections.map (fun s => s.id) ∧
      CardResp.id ⟨"c1", "t", "", .normal, "", some 0, some [], "d", none⟩ = "c1") ∧
    (∀ i, i < (Board.mk "b" "t"
        [⟨"a", "A", [⟨"c1", "t", "", .normal, "", [], 0, "a", none⟩], true⟩,
         ⟨"d", "D", [], true⟩]).sections.length →
      ((Board.mk "b" "t"
        [⟨"a", "A", [⟨"c1", "t", "", .normal, "", [], 0, "a", none⟩], true⟩,
         ⟨"d", "D", [], true⟩]).sections.getD i defaultSection).id = "d" →
      ((Client.moveCard "c1" "d"
          (.ok ⟨"c1", "t", "", .normal, "", some 0, some [], "d", none⟩)
          (Board.mk "b" "t"
            [⟨"a", "A", [⟨"c1", "t", "", .normal, "", [], 0, "a", none⟩], true⟩,
             ⟨"d", "D", [], true⟩])).1.sections.getD i defaultSection).cards =
        (((Board.mk "b" "t"
            [⟨"a", "A", [⟨"c1", "t", "", .normal, "", [], 0, "a", none⟩], true⟩,
             ⟨"d", "D", [], true⟩]).sections.getD i defaultSection).cards.filter
          (fun c => !(c.id == "c1")))
          ++ [Client.CardResp.toMovedCard
                ⟨"c1", "t", "", .normal, "", some 0, some [], "d", none⟩]) := by
  refine ⟨⟨by decide, by decide, rfl⟩, ?_⟩
  exact (moveCard_removes_and_appends_server_card _ "c1" "d" _
    (by decide) (by decide) rfl).2.2

/-- C10: when the target section id matches no section of the local
board, the moveCard merge removes the card from every section and
appends it nowhere: the card id disappears from the board entirely,
which is not a no-op when the card was present. -/
theorem moveCard_unknown_target_drops_card (b : Board)
    (cardId targetSectionId : String) (moved : CardResp)
    (hpresent : cardId ∈ allCardIds b)
    (habsent : ∀ s ∈ b.sections, s.id ≠ targetSectionId) :
    ((Client.moveCard cardId targetSectionId (.ok moved) b).1.sections =
        b.sections.map (fun s =>
          { s with cards := s.cards.filter (fun c => !(c.id == cardId)) })) ∧
    cardId ∉ allCardIds (Client.moveCard cardId targetSectionId (.ok moved) b).1 ∧
    (Client.moveCard cardId targetSectionId (.ok moved) b).1 ≠ b := by
  have hsections :
      (Client.moveCard cardId targetSectionId (.ok moved) b).1.sections =
      b.sections.map (fun s =>
        { s with cards := s.cards.filter (fun c => !(c.id == cardId)) }) := by
    rw [moveCard_sections_eq b cardId targetSectionId moved]
    apply List.map_congr_left
    intro s hs
    have hne : ¬ (s.id = targetSectionId) := habsent s hs
    have ht : (s.id == targetSectionId) = false := by
      simpa using hne
    simp only [ht, Bool.false_eq_true, if_false]
  have habsent2 :
      cardId ∉ allCardIds (Client.moveCard cardId targetSectionId (.ok moved) b).1 := by
    intro hmem
    rcases mem_allCardIds.mp hmem with ⟨s, hs, c, hc, hcid⟩
    rw [hsections] at hs
    rcases List.mem_map.mp hs with ⟨s0, _, rfl⟩
    rcases List.mem_filter.mp hc with ⟨_, hne⟩
    rw [hcid] at hne
    simp at hne
  refine ⟨hsections, habsent2, ?_⟩
  intro heq
  rw [heq] at habsent2
  exact habsent2 hpresent

/-- C10 witness: moving card c1 to the unknown section id z removes it
from the board. -/
theorem moveCard_unknown_target_drops_card_witness :
    ("c1" ∈ allCardIds (Board.mk "b" "t"
        [⟨"a", "A", [⟨"c1", "t", "", .normal, "", [], 0, "a", none⟩], true⟩]) ∧
      (∀ s ∈ (Board.mk "b" "t"
        [⟨"a", "A", [⟨"c1", "t", "", .normal, "", [], 0, "a", none⟩], true⟩]).sections,
        s.id ≠ "z")) ∧
    "c1" ∉ allCardIds (Client.moveCard "c1" "z"
      (.ok ⟨"c1", "t", "", .normal, "", some 0, some [], "z", none⟩)
      (Board.mk "b" "t"
        [⟨"a", "A", [⟨"c1", "t", "", .normal, "", [], 0, "a", none⟩], true⟩])).1 := by
  refine ⟨⟨by decide, by decide⟩, ?_⟩
  exact (moveCard_unknown_target_drops_card _ "c1" "z" _
    (by decide) (by decide)).2.1

/-- C6 counterexample: the board lists card c1 under section A; the user
saves it with sectionId B and the server echoes sectionId B; after the
updateCard merge the card is still listed under section A (with its
sectionId field set to B), not under section B as the claim states. -/
theorem updateCard_keeps_local_section_counterexample :
    CardResp.sectionId
        (⟨"c1", "t", "", .normal, "", some 0, some [], "B", none⟩ : CardResp) = "B" ∧
    (((Client.updateCard ⟨"c1", "t", "", .normal, "", [], 0, "B", none⟩
        (.ok ⟨"c1", "t", "", .normal, "", some 0, some [], "B", none⟩)
        (Board.mk "b" "t"
          [⟨"A", "A", [⟨"c1", "t", "", .normal, "", [], 0, "A", none⟩], true⟩,
           ⟨"B", "B", [], true⟩])).1.sections.filter
        (fun s => s.cards.any (fun c => c.id == "c1"))).map (fun s => s.id))
      = ["A"] := by
  exact ⟨rfl, by decide⟩

/-- C6 (amended): the updateCard merge overwrites the matching card in
place from the server response: the per-section card id sequences are
unchanged (the card stays listed under whichever section listed it
before, even when the server-returned sectionId differs), and every card
listed with the updated id carries the server-returned field values, in
particular the server-returned sectionId in its sectionId field.
Membership is re-derived from the server response by moveCard and by the
refetching operations, not by updateCard. -/
theorem updateCard_overwrites_in_place (b : Board) (card : Card)
    (updated : CardResp) (hecho : CardResp.id updated = Card.id card) :
    ((Client.updateCard card (.ok updated) b).1.sections.map
        (fun s => s.cards.map (fun c => c.id)) =
      b.sections.map (fun s => s.cards.map (fun c => c.id))) ∧
    (∀ s ∈ (Client.updateCard card (.ok updated) b).1.sections,
      ∀ c ∈ s.cards, c.id = card.id →
        c.sectionId = updated.sectionId ∧ c.title = updated.title ∧
        c.priority = updated.priority ∧ c.executor = updated.executor) := by
  have hsections :
      (Client.updateCard card (.ok updated) b).1.sections =
      b.sections.map (fun s =>
        { s with cards := s.cards.map (fun c =>
            if c.id == card.id then Client.CardResp.applyUpdate updated c
            else c) }) := rfl
  constructor
  · rw [hsections, List.map_map]
    apply List.map_congr_left
    intro s _
    simp only [Function.comp_apply, List.map_map]
    apply List.map_congr_left
    intro c _
    by_cases hc : (c.id == card.id) = true
    · simp only [Function.comp_apply, hc, if_pos]
      show (Client.CardResp.applyUpdate updated c).id = c.id
      show updated.id = c.id
      rw [hecho, eq_of_beq hc]
    · simp only [Function.comp_apply, Bool.not_eq_true] at hc
      simp only [Function.comp_apply, hc, Bool.false_eq_true, if_false]
  · intro s hs c hc hcid
    rw [hsections] at hs
    rcases List.mem_map.mp hs with ⟨s0, _, rfl⟩
    rcases List.mem_map.mp hc with ⟨c0, _, rfl⟩
    by_cases h0 : (c0.id == card.id) = true
    · simp only [h0, if_pos]
      exact ⟨rfl, rfl, rfl, rfl⟩
    · exfalso
      simp only [Bool.not_eq_true] at h0
      simp only [h0, Bool.false_eq_true, if_false] at hcid
      exact absurd hcid (by simpa using h0)

/-- C6 witness: the amended statement at the concrete board of the
counterexample. -/
theorem updateCard_overwrites_in_place_witness :
    CardResp.id (⟨"c1", "t", "", .normal, "", some 0, some [], "B", none⟩ : CardResp)
        = Card.id (⟨"c1", "t", "", .normal, "", [], 0, "B", none⟩ : Card) ∧
    (∀ s ∈ (Client.updateCard ⟨"c1", "t", "", .normal, "", [], 0, "B", none⟩
        (.ok ⟨"c1", "t", "", .normal, "", some 0, some [], "B", none⟩)
        (Board.mk "b" "t"
          [⟨"A", "A", [⟨"c1", "t", "", .normal, "", [], 0, "A", none⟩], true⟩,
           ⟨"B", "B", [], true⟩])).1.sections,
      ∀ c ∈ s.cards, c.id = Card.id (⟨"c1", "t", "", .normal, "", [], 0, "B", none⟩ : Card) →
        c.sectionId = "B" ∧ c.title = "t" ∧
        c.priority = Priority.normal ∧ c.executor = "") := by
  refine ⟨rfl, ?_⟩
  exact (updateCard_overwrites_in_place _ _ _ rfl).2

/-- C2 (code bug at the failing input): with a Backlog section and a
deletable section To Do holding card c1, the server deleteSection route
answers 200 but hard-deletes c1 (and its comments) instead of relocating
it; after the client refetch-and-replace, the Backlog section exists and
is empty and c1 appears in no section of the board — contradicting the
claim, the client comment at the refetch site and the UI toast, all of
which say the cards of the deleted section move to Backlog. The
delete-all route, by contrast, does relocate cards to Backlog, which
witnesses the intent. -/
theorem deleteSection_deletes_cards_instead_of_relocating :
    (Server.deleteSection "s-todo"
        ⟨[⟨"s-backlog", "Backlog", false⟩, ⟨"s-todo", "To Do", true⟩],
         [⟨"c1", "t", "", .normal, "", 0, "s-todo"⟩], []⟩).2 = 200 ∧
    (∃ s ∈ (Client.deleteSection "s-todo" (.ok ())
        (Server.getBoard "p" "P" (Server.deleteSection "s-todo"
          ⟨[⟨"s-backlog", "Backlog", false⟩, ⟨"s-todo", "To Do", true⟩],
           [⟨"c1", "t", "", .normal, "", 0, "s-todo"⟩], []⟩).1)
        (Board.mk "b" "t" [])).1.sections,
      s.title = "Backlog" ∧ s.cards = []) ∧
    "c1" ∉ allCardIds (Client.deleteSection "s-todo" (.ok ())
        (Server.getBoard "p" "P" (Server.deleteSection "s-todo"
          ⟨[⟨"s-backlog", "Backlog", false⟩, ⟨"s-todo", "To Do", true⟩],
           [⟨"c1", "t", "", .normal, "", 0, "s-todo"⟩], []⟩).1)
        (Board.mk "b" "t" [])).1 ∧
    (∃ c ∈ (Server.deleteAllSections
        ⟨[⟨"s-backlog", "Backlog", false⟩, ⟨"s-todo", "To Do", true⟩],
         [⟨"c1", "t", "", .normal, "", 0, "s-todo"⟩], []⟩).1.cards,
      c.id = "c1" ∧ c.sectionId = "s-backlog") := by
  decide

theorem exclusive_iff (b : Board) :
    ExclusiveMembership b ↔ ∀ id, sectionsListing b id ≤ 1 := by
  constructor
  · intro h id
    by_cases hm : id ∈ allCardIds b
    · rw [h id hm]
    · have hz : sectionsListing b id = 0 := by
        rw [sectionsListing, List.countP_eq_zero]
        intro s hs hp
        rcases List.any_eq_true.mp hp with ⟨c, hc, hcid⟩
        exact hm (mem_allCardIds.mpr ⟨s, hs, c, hc, by simpa using hcid⟩)
      rw [hz]
      exact Nat.zero_le 1
  · intro h id hm
    refine Nat.le_antisymm (h id) ?_
    rcases mem_allCardIds.mp hm with ⟨s, hs, c, hc, hcid⟩
    rw [sectionsListing]
    exact List.countP_pos_iff.mpr ⟨s, hs, List.any_eq_true.mpr ⟨c, hc, by simp [hcid]⟩⟩

theorem any_filter_neg {α : Type} (l : List α) (p : α → Bool) :
    (l.filter (fun a => !(p a))).any p = false := by
  rw [List.any_eq_false]
  intro a ha
  rcases List.mem_filter.mp ha with ⟨_, hna⟩
  simpa using hna

theorem countP_sectionId_le_one (l : List Section)
    (h : (l.map (fun s => s.id)).Nodup) (sid : String) :
    l.countP (fun s => s.id == sid) ≤ 1 := by
  have hc : l.countP (fun s => s.id == sid) =
      (l.map (fun s => s.id)).countP (fun x => x == sid) := by
    rw [List.countP_map]
    rfl
  rw [hc, ← List.count_eq_countP]
  exact List.nodup_iff_count_le_one.mp h sid

theorem sectionsListing_updateCard (b : Board) (card : Card)
    (updated : CardResp) (hecho : CardResp.id updated = Card.id card)
    (id : String) :
    sectionsListing (Client.updateCard card (.ok updated) b).1 id =
      sectionsListing b id := by
  show List.countP _ (b.sections.map _) = _
  rw [List.countP_map]
  apply List.countP_congr
  intro s _
  dsimp only [Function.comp_apply]
  rw [List.any_map]
  have hfun : ((fun c => c.id == id) ∘ (fun c : Card =>
      if c.id == card.id then Client.CardResp.applyUpdate updated c else c)) =
      (fun c : Card => c.id == id) := by
    funext c
    dsimp only [Function.comp_apply]
    by_cases h0 : (c.id == card.id) = true
    · rw [if_pos h0]
      show (updated.id == id) = (c.id == id)
      rw [hecho, eq_of_beq h0]
    · rw [if_neg h0]
  rw [hfun]

theorem sectionsListing_assignUser (b : Board) (cid uid : String)
    (assignees : List UserLite) (id : String) :
    sectionsListing (Client.assignUser cid uid (.ok assignees) b).1 id =
      sectionsListing b id := by
  show List.countP _ (b.sections.map _) = _
  rw [List.countP_map]
  apply List.countP_congr
  intro s _
  dsimp only [Function.comp_apply]
  rw [List.any_map]
  have hfun : ((fun c => c.id == id) ∘ (fun c : Card =>
      if c.id == cid then { c with assignees := some assignees } else c)) =
      (fun c : Card => c.id == id) := by
    funext c
    dsimp only [Function.comp_apply]
    by_cases h0 : (c.id == cid) = true
    · rw [if_pos h0]
    · rw [if_neg h0]
  rw [hfun]

theorem sectionsListing_unassignUser (b : Board) (cid uid : String)
    (assignees : List UserLite) (id : String) :
    sectionsListing (Client.unassignUser cid uid (.ok assignees) b).1 id =
      sectionsListing b id := by
  show List.countP _ (b.sections.map _) = _
  rw [List.countP_map]
  apply List.countP_congr
  intro s _
  dsimp only [Function.comp_apply]
  rw [List.any_map]
  have hfun : ((fun c => c.id == id) ∘ (fun c : Card =>
      if c.id == cid then { c with assignees := some assignees } else c)) =
      (fun c : Card => c.id == id) := by
    funext c
    dsimp only [Function.comp_apply]
    by_cases h0 : (c.id == cid) = true
    · rw [if_pos h0]
    · rw [if_neg h0]
  rw [hfun]

theorem sectionsListing_deleteCard_le (b : Board) (cid : String) (id : String) :
    sectionsListing (Client.deleteCard cid (.ok ()) b).1 id ≤
      sectionsListing b id := by
  show List.countP _ (b.sections.map _) ≤ _
  rw [List.countP_map]
  apply List.countP_mono_left
  intro s _ h
  dsimp only [Function.comp_apply] at h
  rcases List.any_eq_true.mp h with ⟨c, hc, hq⟩
  exact List.any_eq_true.mpr ⟨c, (List.mem_filter.mp hc).1, hq⟩

theorem sectionsListing_moveCard_le_one (b : Board)
    (hsec : (b.sections.map (fun s => s.id)).Nodup)
    (hle : ∀ id, sectionsListing b id ≤ 1)
    (cardId tid : String) (moved : CardResp)
    (hecho : CardResp.id moved = cardId) (id : String) :
    sectionsListing (Client.moveCard cardId tid (.ok moved) b).1 id ≤ 1 := by
  rw [sectionsListing, moveCard_sections_eq, List.countP_map]
  by_cases hid : id = cardId
  · subst hid
    refine le_trans (le_of_eq (List.countP_congr ?_))
      (countP_sectionId_le_one b.sections hsec tid)
    intro s _
    dsimp only [Function.comp_apply]
    by_cases ht : (s.id == tid) = true
    · rw [if_pos ht]
      constructor
      · intro _
        exact ht
      · intro _
        refine List.any_eq_true.mpr
          ⟨Client.CardResp.toMovedCard moved,
           List.mem_append_right _ (List.mem_singleton.mpr rfl), ?_⟩
        show (moved.id == id) = true
        rw [hecho]
        exact beq_self_eq_true id
    · rw [if_neg ht]
      have hnone : ((s.cards.filter (fun c => !(c.id == id))).any
          (fun c => c.id == id)) = false :=
        any_filter_neg s.cards (fun c => c.id == id)
      rw [hnone]
      simp only [Bool.false_eq_true, false_iff]
      exact ht
  · refine le_trans (List.countP_mono_left ?_) (hle id)
    intro s _ h
    dsimp only [Function.comp_apply] at h
    by_cases ht : (s.id == tid) = true
    · rw [if_pos ht] at h
      rcases List.any_eq_true.mp h with ⟨c, hc, hq⟩
      rcases List.mem_append.mp hc with hcl | hcr
      · rcases List.mem_filter.mp hcl with ⟨hcm, _⟩
        exact List.any_eq_true.mpr ⟨c, hcm, hq⟩
      · exfalso
        rw [List.mem_singleton.mp hcr] at hq
        have : moved.id = id := eq_of_beq hq
        exact hid (by rw [← this, hecho])
    · rw [if_neg ht] at h
      rcases List.any_eq_true.mp h with ⟨c, hc, hq⟩
      rcases List.mem_filter.mp hc with ⟨hcm, _⟩
      exact List.any_eq_true.mpr ⟨c, hcm, hq⟩

theorem sectionsListing_addCard_le_one (b : Board)
    (hsec : (b.sections.map (fun s => s.id)).Nodup)
    (hle : ∀ id, sectionsListing b id ≤ 1)
    (sectionId : String) (created : CardResp)
    (hfresh : CardResp.id created ∉ allCardIds b) (id : String) :
    sectionsListing (Client.addCard sectionId (.ok created) b).1 id ≤ 1 := by
  show List.countP _ (b.sections.map _) ≤ 1
  rw [List.countP_map]
  by_cases hid : id = CardResp.id created
  · subst hid
    refine le_trans (le_of_eq (List.countP_congr ?_))
      (countP_sectionId_le_one b.sections hsec sectionId)
    intro s hs
    dsimp only [Function.comp_apply]
    have hnone : (s.cards.any fun c => c.id == created.id) = false := by
      rw [List.any_eq_false]
      intro c hc hq
      exact hfresh (mem_allCardIds.mpr ⟨s, hs, c, hc, eq_of_beq hq⟩)
    by_cases ht : (s.id == sectionId) = true
    · rw [if_pos ht]
      constructor
      · intro _
        exact ht
      · intro _
        refine List.any_eq_true.mpr
          ⟨Client.CardResp.toCreatedCard created,
           List.mem_append_right _ (List.mem_singleton.mpr rfl), ?_⟩
        show (created.id == created.id) = true
        exact beq_self_eq_true created.id
    · rw [if_neg ht, hnone]
      simp only [Bool.false_eq_true, false_iff]
      exact ht
  · refine le_trans (List.countP_mono_left ?_) (hle id)
    intro s _ h
    dsimp only [Function.comp_apply] at h
    by_cases ht : (s.id == sectionId) = true
    · rw [if_pos ht] at h
      rcases List.any_eq_true.mp h with ⟨c, hc, hq⟩
      rcases List.mem_append.mp hc with hcl | hcr
      · exact List.any_eq_true.mpr ⟨c, hcl, hq⟩
      · exfalso
        rw [List.mem_singleton.mp hcr] at hq
        exact hid (eq_of_beq hq).symm
    · rw [if_neg ht] at h
      exact h

/-- C1 (amended): on a board whose section identifiers are unique (a
spec invariant the original claim does not assume, but without which the
per-section-id merges append to several sections), every local merge —
addCard with a fresh server-assigned id, updateCard and moveCard with
the server echoing the mutated card id, deleteCard, assignUser,
unassignUser — preserves exclusive membership of card identifiers. -/
theorem exclusiveMembership_preserved_of_sectionIds_nodup (b : Board)
    (hsec : (b.sections.map (fun s => s.id)).Nodup)
    (hex : ExclusiveMembership b) :
    (∀ sectionId created, CardResp.id created ∉ allCardIds b →
      ExclusiveMembership (Client.addCard sectionId (.ok created) b).1) ∧
    (∀ card updated, CardResp.id updated = Card.id card →
      ExclusiveMembership (Client.updateCard card (.ok updated) b).1) ∧
    (∀ cardId, ExclusiveMembership (Client.deleteCard cardId (.ok ()) b).1) ∧
    (∀ cardId targetSectionId moved, CardResp.id moved = cardId →
      targetSectionId ∈ b.sections.map (fun s => s.id) →
      ExclusiveMembership (Client.moveCard cardId targetSectionId (.ok moved) b).1) ∧
    (∀ cardId userId assignees,
      ExclusiveMembership (Client.assignUser cardId userId (.ok assignees) b).1) ∧
    (∀ cardId userId assignees,
      ExclusiveMembership (Client.unassignUser cardId userId (.ok assignees) b).1) := by
  have hle := (exclusive_iff b).mp hex
  refine ⟨?_, ?_, ?_, ?_, ?_, ?_⟩
  · intro sid created hfresh
    exact (exclusive_iff _).mpr
      (fun id => sectionsListing_addCard_le_one b hsec hle sid created hfresh id)
  · intro card updated hecho
    refine (exclusive_iff _).mpr (fun id => ?_)
    rw [sectionsListing_updateCard b card updated hecho id]
    exact hle id
  · intro cid
    exact (exclusive_iff _).mpr
      (fun id => le_trans (sectionsListing_deleteCard_le b cid id) (hle id))
  · intro cid tid moved hecho htid
    exact (exclusive_iff _).mpr
      (fun id => sectionsListing_moveCard_le_one b hsec hle cid tid moved hecho id)
  · intro cid uid a
    refine (exclusive_iff _).mpr (fun id => ?_)
    rw [sectionsListing_assignUser b cid uid a id]
    exact hle id
  · intro cid uid a
    refine (exclusive_iff _).mpr (fun id => ?_)
    rw [sectionsListing_unassignUser b cid uid a id]
    exact hle id

/-- C1 counterexample: a board with two sections that share the id A and
card c1 listed exactly once satisfies the claim's only hypothesis
(exclusive membership), and A is a section id present on the board, yet
the moveCard merge to A appends the server card to both sections with
that id, so c1 ends up listed in two section card sequences. -/
theorem exclusiveMembership_not_preserved_with_duplicate_sectionIds :
    ExclusiveMembership (Board.mk "b" "t"
      [⟨"A", "S1", [⟨"c1", "t", "", .normal, "", [], 0, "A", none⟩], true⟩,
       ⟨"A", "S2", [], true⟩]) ∧
    "A" ∈ (Board.mk "b" "t"
      [⟨"A", "S1", [⟨"c1", "t", "", .normal, "", [], 0, "A", none⟩], true⟩,
       ⟨"A", "S2", [], true⟩]).sections.map (fun s => s.id) ∧
    CardResp.id (⟨"c1", "t", "", .normal, "", some 0, some [], "A", none⟩ : CardResp)
      = "c1" ∧
    ¬ ExclusiveMembership (Client.moveCard "c1" "A"
        (.ok ⟨"c1", "t", "", .normal, "", some 0, some [], "A", none⟩)
        (Board.mk "b" "t"
          [⟨"A", "S1", [⟨"c1", "t", "", .normal, "", [], 0, "A", none⟩], true⟩,
           ⟨"A", "S2", [], true⟩])).1 := by
  refine ⟨by decide, by decide, rfl, by decide⟩

/-- C1 witness: the amended preservation applied to a well-formed board,
instantiated at the moveCard merge. -/
theorem exclusiveMembership_preserved_of_sectionIds_nodup_witness :
    (((Board.mk "b" "t"
        [⟨"a", "A", [⟨"c1", "t", "", .normal, "", [], 0, "a", none⟩], true⟩,
         ⟨"d", "D", [], true⟩]).sections.map (fun s => s.id)).Nodup ∧
      ExclusiveMembership (Board.mk "b" "t"
        [⟨"a", "A", [⟨"c1", "t", "", .normal, "", [], 0, "a", none⟩], true⟩,
         ⟨"d", "D", [], true⟩]) ∧
      CardResp.id (⟨"c1", "t", "", .normal, "", some 0, some [], "d", none⟩ : CardResp)
        = "c1" ∧
      "d" ∈ (Board.mk "b" "t"
        [⟨"a", "A", [⟨"c1", "t", "", .normal, "", [], 0, "a", none⟩], true⟩,
         ⟨"d", "D", [], true⟩]).sections.map (fun s => s.id)) ∧
    ExclusiveMembership (Client.moveCard "c1" "d"
      (.ok ⟨"c1", "t", "", .normal, "", some 0, some [], "d", none⟩)
      (Board.mk "b" "t"
        [⟨"a", "A", [⟨"c1", "t", "", .normal, "", [], 0, "a", none⟩], true⟩,
         ⟨"d", "D", [], true⟩])).1 := by
  refine ⟨⟨by decide, by decide, rfl, by decide⟩, ?_⟩
  exact (exclusiveMembership_preserved_of_sectionIds_nodup _ (by decide)
    (by decide)).2.2.2.1 "c1" "d" _ rfl (by decide)

theorem updateCardRow_sections (cardId title description : String)
    (priority : Priority) (executor : String) (sectionId : Option String)
    (st : Server.DbState) :
    (Server.updateCard.updateCardRow cardId title description priority
      executor sectionId st).1.sections = st.sections := by
  rw [Server.updateCard.updateCardRow.eq_def]
  split <;> rfl

theorem applyOp_sections_unchanged_for_card_ops (st : Server.DbState) :
    (∀ newId sectionId title description priority executor createdAt,
      (Server.createCard newId sectionId title description priority executor
        createdAt st).1.sections = st.sections) ∧
    (∀ cardId title description priority executor sectionId,
      (Server.updateCard cardId title description priority executor sectionId
        st).1.sections = st.sections) ∧
    (∀ cardId, (Server.deleteCard cardId st).1.sections = st.sections) ∧
    (∀ cardId targetSectionId,
      (Server.moveCard cardId targetSectionId st).1.sections = st.sections) ∧
    (∀ id, (Server.clearSection id st).1.sections = st.sections) := by
  refine ⟨?_, ?_, ?_, ?_, ?_⟩
  · intro newId sectionId title description priority executor createdAt
    rw [Server.createCard]
    split
    · rfl
    · split <;> rfl
  · intro cardId title description priority executor sectionId
    rw [Server.updateCard.eq_def]
    split
    · rfl
    · split
      · split
        · rfl
        · exact updateCardRow_sections _ _ _ _ _ _ _
      · exact updateCardRow_sections _ _ _ _ _ _ _
  · intro cardId
    rw [Server.deleteCard]
    split <;> rfl
  · intro cardId targetSectionId
    rw [Server.moveCard]
    split
    · rfl
    · split <;> rfl
  · intro id
    rw [Server.clearSection]
    split <;> rfl

theorem applyOp_preserves_nondeletable (op : Server.ServerOp)
    (st : Server.DbState) (hN : Server.SectionIdsUnique st)
    (s : Server.DbSection) (hs : s ∈ st.sections) (hcd : s.canDelete = false) :
    s ∈ (Server.applyOp op st).sections := by
  have hcard := applyOp_sections_unchanged_for_card_ops st
  cases op with
  | createSection newId title =>
      show s ∈ (Server.createSection newId title st).1.sections
      rw [Server.createSection]
      split
      · exact hs
      · exact List.mem_append_left _ hs
  | deleteSection i =>
      show s ∈ (Server.deleteSection i st).1.sections
      rw [Server.deleteSection]
      split
      · exact hs
      · rename_i sec hfind
        split
        · exact hs
        · rename_i hdel
          have hsec : sec.canDelete = true := by
            cases hsc : sec.canDelete with
            | true => rfl
            | false => exact absurd (by simp [hsc]) hdel
          have hne : s ≠ sec := by
            intro he
            rw [he, hsec] at hcd
            exact Bool.true_eq_false.mp hcd
          exact (List.mem_erase_of_ne hne).mpr hs
  | clearSection i =>
      rw [show Server.applyOp (.clearSection i) st = (Server.clearSection i st).1 from rfl,
        hcard.2.2.2.2 i]
      exact hs
  | deleteAllSections =>
      show s ∈ (Server.deleteAllSections st).1.sections
      rw [Server.deleteAllSections]
      split
      · exact hs
      · refine List.mem_filter.mpr ⟨hs, ?_⟩
        have hnc : ¬ (((st.sections.filter (fun t => t.canDelete)).map
            (fun t => t.id)).contains s.id = true) := by
          intro hcont
          have hmem : s.id ∈ (st.sections.filter (fun t => t.canDelete)).map
              (fun t => t.id) := by
            simpa using hcont
          rcases List.mem_map.mp hmem with ⟨t, ht, htid⟩
          rcases List.mem_filter.mp ht with ⟨htm, htc⟩
          have : t = s := List.inj_on_of_nodup_map hN htm hs htid
          rw [this] at htc
          rw [hcd] at htc
          exact Bool.false_ne_true htc
        simpa using hnc
  | createCard newId sectionId title description priority executor createdAt =>
      rw [show Server.applyOp (.createCard newId sectionId title description
          priority executor createdAt) st =
        (Server.createCard newId sectionId title description priority executor
          createdAt st).1 from rfl,
        hcard.1 newId sectionId title description priority executor createdAt]
      exact hs
  | updateCard cardId title description priority executor sectionId =>
      rw [show Server.applyOp (.updateCard cardId title description priority
          executor sectionId) st =
        (Server.updateCard cardId title description priority executor sectionId
          st).1 from rfl,
        hcard.2.1 cardId title description priority executor sectionId]
      exact hs
  | deleteCard cardId =>
      rw [show Server.applyOp (.deleteCard cardId) st =
        (Server.deleteCard cardId st).1 from rfl, hcard.2.2.1 cardId]
      exact hs
  | moveCard cardId targetSectionId =>
      rw [show Server.applyOp (.moveCard cardId targetSectionId) st =
        (Server.moveCard cardId targetSectionId st).1 from rfl,
        hcard.2.2.2.1 cardId targetSectionId]
      exact hs

theorem applyOp_preserves_sectionIdsUnique (op : Server.ServerOp)
    (st : Server.DbState) (hN : Server.SectionIdsUnique st)
    (hfresh : match op with
      | .createSection newId _ => newId ∉ st.sections.map (fun s => s.id)
      | _ => True) :
    Server.SectionIdsUnique (Server.applyOp op st) := by
  have hcard := applyOp_sections_unchanged_for_card_ops st
  cases op with
  | createSection newId title =>
      show Server.SectionIdsUnique (Server.createSection newId title st).1
      rw [Server.createSection]
      split
      · exact hN
      · show ((st.sections ++
            [({ id := newId, title := title, canDelete := true } :
              Server.DbSection)]).map
            (fun s : Server.DbSection => s.id)).Nodup
        rw [List.map_append, List.nodup_append]
        refine ⟨hN, List.nodup_singleton _, ?_⟩
        intro x hx hx1
        rcases List.mem_singleton.mp hx1 with rfl
        exact hfresh hx
  | deleteSection i =>
      show Server.SectionIdsUnique (Server.deleteSection i st).1
      rw [Server.deleteSection]
      split
      · exact hN
      · split
        · exact hN
        · exact ((List.erase_sublist _ _).map (fun s : Server.DbSection => s.id)).nodup
            (show (st.sections.map (fun s : Server.DbSection => s.id)).Nodup from hN)
  | clearSection i =>
      show Server.SectionIdsUnique (Server.clearSection i st).1
      rw [Server.SectionIdsUnique, hcard.2.2.2.2 i]
      exact hN
  | deleteAllSections =>
      show Server.SectionIdsUnique (Server.deleteAllSections st).1
      rw [Server.deleteAllSections]
      split
      · exact hN
      · exact ((List.filter_sublist _).map (fun s : Server.DbSection => s.id)).nodup
            (show (st.sections.map (fun s : Server.DbSection => s.id)).Nodup from hN)
  | createCard newId sectionId title description priority executor createdAt =>
      rw [Server.SectionIdsUnique, show Server.applyOp (.createCard newId
          sectionId title description priority executor createdAt) st =
        (Server.createCard newId sectionId title description priority executor
          createdAt st).1 from rfl,
        hcard.1 newId sectionId title description priority executor createdAt]
      exact hN
  | updateCard cardId title description priority executor sectionId =>
      rw [Server.SectionIdsUnique, show Server.applyOp (.updateCard cardId
          title description priority executor sectionId) st =
        (Server.updateCard cardId title description priority executor sectionId
          st).1 from rfl,
        hcard.2.1 cardId title description priority executor sectionId]
      exact hN
  | deleteCard cardId =>
      rw [Server.SectionIdsUnique, show Server.applyOp (.deleteCard cardId) st =
        (Server.deleteCard cardId st).1 from rfl, hcard.2.2.1 cardId]
      exact hN
  | moveCard cardId targetSectionId =>
      rw [Server.SectionIdsUnique, show Server.applyOp (.moveCard cardId
          targetSectionId) st = (Server.moveCard cardId targetSectionId st).1
        from rfl, hcard.2.2.2.1 cardId targetSectionId]
      exact hN

theorem nondeletable_survives_ops (ops : List Server.ServerOp) :
    ∀ st : Server.DbState, Server.SectionIdsUnique st →
      Server.FreshSectionIds st ops →
      ∀ s ∈ st.sections, s.canDelete = false →
        s ∈ (Server.applyOps ops st).sections := by
  induction ops with
  | nil =>
      intro st _ _ s hs _
      exact hs
  | cons op rest ih =>
      intro st hN hF s hs hcd
      rcases hF with ⟨hfop, hFrest⟩
      exact ih (Server.applyOp op st)
        (applyOp_preserves_sectionIdsUnique op st hN hfop) hFrest s
        (applyOp_preserves_nondeletable op st hN s hs hcd) hcd

/-- C7: Backlog immunity. The seeded Backlog section carries
canDelete = false; the UI handler looks the section up and calls the
remote deleteSection only when canDelete holds; the server rejects
deletion of a non-deletable section with 400 and an unchanged state; and
along any sequence of server mutations (with primary-key-unique section
ids and fresh server-assigned ids), a non-deletable section — in
particular Backlog — is never deleted. -/
theorem backlog_immunity :
    (∀ (board : Board) (sectionId : String) s,
      board.sections.find? (fun t => t.id == sectionId) = some s →
      s.canDelete = false →
      Index.handleDeleteSection board sectionId = none) ∧
    (∀ (st : Server.DbState) (id : String) s,
      st.sections.find? (fun t => t.id == id) = some s →
      s.canDelete = false →
      Server.deleteSection id st = (st, 400)) ∧
    (∀ backlogId todoId reviewId doneId,
      (Server.seedSections backlogId todoId reviewId doneId).head? =
        some ⟨backlogId, "Backlog", false⟩) ∧
    (∀ ops st, Server.SectionIdsUnique st → Server.FreshSectionIds st ops →
      ∀ s ∈ st.sections, s.canDelete = false →
        s ∈ (Server.applyOps ops st).sections) := by
  refine ⟨?_, ?_, ?_, ?_⟩
  · intro board sectionId s hfind hcd
    rw [Index.handleDeleteSection, hfind]
    simp [hcd]
  · intro st id s hfind hcd
    rw [Server.deleteSection, hfind]
    simp [hcd]
  · intro backlogId todoId reviewId doneId
    rfl
  · exact fun ops st hN hF s hs hcd => nondeletable_survives_ops ops st hN hF s hs hcd

/-- C7 witness: the Backlog row survives a delete attempt on itself, a
delete-all, and a delete of a sibling section. -/
theorem backlog_immunity_witness :
    (Server.SectionIdsUnique
        ⟨Server.seedSections "bk" "td" "rv" "dn", [], []⟩ ∧
      Server.FreshSectionIds
        ⟨Server.seedSections "bk" "td" "rv" "dn", [], []⟩
        [.deleteSection "bk", .deleteAllSections, .deleteSection "td"] ∧
      (⟨"bk", "Backlog", false⟩ : Server.DbSection) ∈
        (⟨Server.seedSections "bk" "td" "rv" "dn", [], []⟩ : Server.DbState).sections ∧
      (⟨"bk", "Backlog", false⟩ : Server.DbSection).canDelete = false) ∧
    (⟨"bk", "Backlog", false⟩ : Server.DbSection) ∈
      (Server.applyOps [.deleteSection "bk", .deleteAllSections, .deleteSection "td"]
        ⟨Server.seedSections "bk" "td" "rv" "dn", [], []⟩).sections := by
  refine ⟨⟨by decide, ⟨trivial, trivial, trivial, trivial⟩, by decide, rfl⟩, ?_⟩
  exact backlog_immunity.2.2.2
    [.deleteSection "bk", .deleteAllSections, .deleteSection "td"]
    ⟨Server.seedSections "bk" "td" "rv" "dn", [], []⟩
    (by decide) ⟨trivial, trivial, trivial, trivial⟩
    ⟨"bk", "Backlog", false⟩ (by decide) rfl

theorem readArr_alloc_lt (h : Index.CardHeap) (c : List Card) (q : Nat)
    (hq : q < h.length) :
    Index.readArr (Index.allocArr h c).1 q = Index.readArr h q := by
  show (h ++ [c]).getD q [] = h.getD q []
  rw [List.getD_eq_getElem?_getD, List.getD_eq_getElem?_getD,
    List.getElem?_append_left hq]

theorem readArr_write_ne (h : Index.CardHeap) (p q : Nat) (c : List Card)
    (hne : p ≠ q) :
    Index.readArr (Index.writeArr h p c) q = Index.readArr h q := by
  show (h.set p c).getD q [] = h.getD q []
  rw [List.getD_eq_getElem?_getD, List.getD_eq_getElem?_getD,
    List.getElem?_set_ne hne]


theorem allocArr_len (h : Index.CardHeap) (c : List Card) :
    (Index.allocArr h c).1.length = h.length + 1 := by
  show (h ++ [c]).length = h.length + 1
  simp

theorem filterPhaseRef_frame (filters : Index.FilterState)
    (h : Index.CardHeap) (p : Nat) :
    h.length < (Index.filterPhaseRef filters h p).1.length ∧
    (∀ q, q < h.length →
      Index.readArr (Index.filterPhaseRef filters h p).1 q = Index.readArr h q) ∧
    h.length ≤ (Index.filterPhaseRef filters h p).2 := by
  unfold Index.filterPhaseRef
  split
  · refine ⟨?_, ?_, ?_⟩
    · rw [allocArr_len, allocArr_len]
      omega
    · intro q hq
      have h1 : q < (Index.allocArr h (Index.readArr h p)).1.length := by
        rw [allocArr_len]
        omega
      rw [readArr_alloc_lt _ _ q h1]
      exact readArr_alloc_lt h _ q hq
    · show h.length ≤ (Index.allocArr h (Index.readArr h p)).1.length
      rw [allocArr_len]
      omega
  · refine ⟨?_, ?_, ?_⟩
    · rw [allocArr_len]
      omega
    · intro q hq
      exact readArr_alloc_lt h _ q hq
    · exact Nat.le_refl _

theorem sortPhaseRef_ptr (filters : Index.FilterState)
    (hf : Index.CardHeap × Nat) :
    (Index.sortPhaseRef filters hf).2 = hf.2 := by
  unfold Index.sortPhaseRef
  split <;> rfl

theorem sortPhaseRef_len (filters : Index.FilterState)
    (hf : Index.CardHeap × Nat) :
    (Index.sortPhaseRef filters hf).1.length = hf.1.length := by
  unfold Index.sortPhaseRef
  split <;> first
    | rfl
    | (show (List.set _ _ _).length = _; rw [List.length_set])

theorem sortPhaseRef_read (filters : Index.FilterState)
    (hf : Index.CardHeap × Nat) (q : Nat) (hq : q ≠ hf.2) :
    Index.readArr (Index.sortPhaseRef filters hf).1 q = Index.readArr hf.1 q := by
  unfold Index.sortPhaseRef
  split <;> first
    | rfl
    | exact readArr_write_ne _ _ q _ (fun he => hq (he.symm))

theorem getFilteredAndSortedCardsRef_frame (filters : Index.FilterState)
    (h : Index.CardHeap) (p : Nat) :
    h.length ≤ (Index.getFilteredAndSortedCardsRef filters h p).1.length ∧
    (∀ q, q < h.length →
      Index.readArr (Index.getFilteredAndSortedCardsRef filters h p).1 q =
        Index.readArr h q) ∧
    h.length ≤ (Index.getFilteredAndSortedCardsRef filters h p).2 := by
  rcases filterPhaseRef_frame filters h p with ⟨hlen, hread, hptr⟩
  unfold Index.getFilteredAndSortedCardsRef
  refine ⟨?_, ?_, ?_⟩
  · rw [sortPhaseRef_len]
    omega
  · intro q hq
    rw [sortPhaseRef_read _ _ q (by omega)]
    exact hread q hq
  · rw [sortPhaseRef_ptr]
    exact hptr

theorem filteredBoardRef_frame (filters : Index.FilterState)
    (ptrs : List Nat) :
    ∀ h : Index.CardHeap, (∀ p ∈ ptrs, p < h.length) →
      h.length ≤ (Index.filteredBoardRef filters h ptrs).1.length ∧
      (∀ q, q < h.length →
        Index.readArr (Index.filteredBoardRef filters h ptrs).1 q =
          Index.readArr h q) ∧
      (∀ v ∈ (Index.filteredBoardRef filters h ptrs).2, h.length ≤ v) := by
  induction ptrs with
  | nil =>
      intro h _
      exact ⟨Nat.le_refl _, fun q _ => rfl, fun v hv => absurd hv (List.not_mem_nil v)⟩
  | cons p rest ih =>
      intro h hp
      rcases getFilteredAndSortedCardsRef_frame filters h p with ⟨hlen, hread, hptr⟩
      rcases ih (Index.getFilteredAndSortedCardsRef filters h p).1
          (fun q hq => Nat.lt_of_lt_of_le (hp q (List.mem_cons_of_mem p hq)) hlen)
        with ⟨hlen2, hread2, hfresh2⟩
      refine ⟨?_, ?_, ?_⟩
      · show h.length ≤ (Index.filteredBoardRef filters _ rest).1.length
        omega
      · intro q hq
        show Index.readArr (Index.filteredBoardRef filters _ rest).1 q = _
        rw [hread2 q (Nat.lt_of_lt_of_le hq hlen)]
        exact hread q hq
      · intro v hv
        rcases List.mem_cons.mp hv with rfl | hv2
        · exact hptr
        · exact Nat.le_trans hlen (hfresh2 v hv2)

/-- C9: evaluating the filter/sort view over every section card array of
the store neither removes nor changes any store array — every store
pointer reads element-for-element the same list afterwards — and every
returned view pointer is a fresh allocation distinct from every store
pointer. -/
theorem filter_sort_view_never_mutates_store (filters : Index.FilterState)
    (h : Index.CardHeap) (ptrs : List Nat)
    (hp : ∀ p ∈ ptrs, p < h.length) :
    (∀ p ∈ ptrs,
      Index.readArr (Index.filteredBoardRef filters h ptrs).1 p =
        Index.readArr h p) ∧
    (∀ v ∈ (Index.filteredBoardRef filters h ptrs).2, ∀ p ∈ ptrs, v ≠ p) := by
  rcases filteredBoardRef_frame filters ptrs h hp with ⟨_, hread, hfresh⟩
  refine ⟨fun p hp2 => hread p (hp p hp2), ?_⟩
  intro v hv p hp2
  have h1 := hfresh v hv
  have h2 := hp p hp2
  omega

/-- C9 witness: a store holding one section array with one card, with
the date sort selected and no active filters. -/
theorem filter_sort_view_never_mutates_store_witness :
    (∀ p ∈ [0], p < ([[⟨"c1", "t", "", .normal, "", [], 0, "a", none⟩]] :
        Index.CardHeap).length) ∧
    (∀ p ∈ [0],
      Index.readArr (Index.filteredBoardRef ⟨[], [], false, "date"⟩
        [[⟨"c1", "t", "", .normal, "", [], 0, "a", none⟩]] [0]).1 p =
        Index.readArr [[⟨"c1", "t", "", .normal, "", [], 0, "a", none⟩]] p) ∧
    (∀ v ∈ (Index.filteredBoardRef ⟨[], [], false, "date"⟩
        [[⟨"c1", "t", "", .normal, "", [], 0, "a", none⟩]] [0]).2,
      ∀ p ∈ [0], v ≠ p) := by
  refine ⟨by decide, ?_⟩
  exact filter_sort_view_never_mutates_store ⟨[], [], false, "date"⟩
    [[⟨"c1", "t", "", .normal, "", [], 0, "a", none⟩]] [0] (by decide)
